import Mathlib

/-!
Verification development for the multi-track ABC-to-audio converter
(src/js-tanks-3d/audio/abc_to_ogg.py).  The Python module is shallowly
embedded: sample buffers are lists of rationals, numpy float arrays are
modelled over the rationals, transcendental primitives (sin, exp, tanh,
np.pi) and the pseudorandom normal draws are abstract fields of an
environment record, and the numpy calls that raise on a negative array
length are modelled with Option (none = raised exception).
-/

namespace AbcToOgg

/-- A sample buffer: an ordered list of samples, modelled as rationals. -/
abbrev Buf := List ℚ

/-- Abstract transcendental and random primitives used by the synthesizers.
The field normal models np.random.normal: the first two arguments are the
mean and the standard deviation, then a per-call identifier and the index
of the draw within that call. -/
structure Env where
  pi : ℚ
  sin : ℚ → ℚ
  exp : ℚ → ℚ
  tanh : ℚ → ℚ
  normal : ℚ → ℚ → ℕ → ℕ → ℚ

/-- Python int() applied to a float value: truncation toward zero. -/
def pyInt (x : ℚ) : ℤ := if x < 0 then ⌈x⌉ else ⌊x⌋

/-- np.sign on a scalar. -/
def pySign (x : ℚ) : ℚ := if 0 < x then 1 else if x < 0 then -1 else 0

/-- np.linspace with endpoint=True (the default), used for the fade and
attack ramps. -/
def linspaceE (a b : ℚ) (n : ℕ) : Buf :=
  if n = 1 then [a] else (List.range n).map (fun i : ℕ => a + (b - a) * i / ((n : ℚ) - 1))

/-- Element-wise sum of two numpy arrays. -/
def badd (x y : Buf) : Buf := List.zipWith (· + ·) x y

/-- np.zeros(n) for a possibly negative requested length n; numpy raises
ValueError on a negative length, modelled as none. -/
def npZeros (n : ℤ) : Option Buf := if n < 0 then none else some (List.replicate n.toNat 0)

/-- The in-place first-order recursive filter loop
for i in range(1, len(xs)): xs[i] = xs[i] - c * xs[i-1]
(the values written earlier in the loop feed the later iterations). -/
def iir1Aux (c : ℚ) (p : ℚ) : List ℚ → List ℚ
  | [] => []
  | x :: rest => (x - c * p) :: iir1Aux c (x - c * p) rest

/-- First-order noise-coloring filter used by the snare synthesizer. -/
def iirFilter1 (c : ℚ) : Buf → Buf
  | [] => []
  | x0 :: rest => x0 :: iir1Aux c x0 rest

/-- The in-place second-order recursive filter loop
for i in range(2, len(xs)): xs[i] = xs[i] - c1 * xs[i-1] + c2 * xs[i-2]. -/
def iir2Aux (c1 c2 : ℚ) (p2 p1 : ℚ) : List ℚ → List ℚ
  | [] => []
  | x :: rest => (x - c1 * p1 + c2 * p2) :: iir2Aux c1 c2 p1 (x - c1 * p1 + c2 * p2) rest

/-- Second-order noise-coloring filter used by the explosion (debris layer)
and the cannon (crack layer) synthesizers. -/
def iirFilter2 (c1 c2 : ℚ) : Buf → Buf
  | [] => []
  | [x0] => [x0]
  | x0 :: x1 :: rest => x0 :: x1 :: iir2Aux c1 c2 x0 x1 rest

/-- The apostrophe character (octave-up marker of the notation). -/
def apos : Char := Char.ofNat 39

/-- The NOTES frequency table of the module (Hz values as exact rationals). -/
def NOTES : List (String × ℚ) := [
  ("A,,", 55), ("B,,", 6174/100), ("C,,", 6541/100), ("D,,", 7342/100),
  ("E,,", 8241/100), ("F,,", 8731/100), ("G,,", 98),
  ("C,", 13081/100), ("D,", 14683/100), ("E,", 16481/100), ("F,", 17461/100),
  ("G,", 196), ("A,", 220), ("B,", 24694/100),
  ("C", 26163/100), ("D", 29366/100), ("E", 32963/100), ("F", 34923/100),
  ("G", 392), ("A", 440), ("B", 49388/100),
  ("c", 52325/100), ("d", 58733/100), ("e", 65925/100), ("f", 69846/100),
  ("g", 78399/100), ("a", 880), ("b", 98777/100),
  ("c".push apos, 104650/100), ("d".push apos, 117466/100),
  ("e".push apos, 131851/100), ("f".push apos, 139691/100),
  ("g".push apos, 156798/100), ("a".push apos, 1760), ("b".push apos, 197553/100),
  ("z", 0),
  ("x", 200)]

/-- A parsed event of one voice, the tagged version of the
(kind, payload, beats) tuples built by parse_voice_content. -/
inductive NoteItem where
  | chord (notes : List String) (beats : ℚ)
  | note (sym : String) (beats : ℚ)
  | rest (beats : ℚ)
deriving DecidableEq

/-- Duration in beats carried by an event. -/
def NoteItem.beats : NoteItem → ℚ
  | .chord _ b => b
  | .note _ b => b
  | .rest b => b

/-- re.sub removing comment text from a percent sign to the end of the line. -/
def stripCommentsAux (inComment : Bool) : List Char → List Char
  | [] => []
  | c :: rest =>
    if c = '\n' then c :: stripCommentsAux false rest
    else if inComment then stripCommentsAux true rest
    else if c = '%' then stripCommentsAux true rest
    else c :: stripCommentsAux false rest

def stripComments (s : List Char) : List Char := stripCommentsAux false s

/-- re.sub replacing every bar line or colon with a space. -/
def replaceBars (s : List Char) : List Char :=
  s.map (fun c => if c = '|' ∨ c = ':' then ' ' else c)

/-- First character of a note token of the pattern class [A-Ga-gx]. -/
def isNoteStart (c : Char) : Bool :=
  ('A' ≤ c && c ≤ 'G') || ('a' ≤ c && c ≤ 'g') || c == 'x'

/-- Octave modifier characters (comma and apostrophe). -/
def isModChar (c : Char) : Bool := c == ',' || c == apos

/-- Left-to-right scan of re.finditer for the token pattern
(bracketed chord | note letter with octave markers | z) followed by an
optional digit multiplier; returns (token characters, digit characters)
pairs in textual order.  The fuel argument bounds the recursion and is
instantiated with the input length. -/
def scanAux : ℕ → List Char → List (List Char × List Char)
  | 0, _ => []
  | _, [] => []
  | fuel + 1, c :: rest =>
    if c = '[' then
      let inside := rest.takeWhile (fun d => !(d == ']'))
      let after := rest.dropWhile (fun d => !(d == ']'))
      match after, inside with
      | ']' :: rest2, _ :: _ =>
        let digits := rest2.takeWhile Char.isDigit
        let rest3 := rest2.dropWhile Char.isDigit
        ('[' :: inside ++ [']'], digits) :: scanAux fuel rest3
      | _, _ => scanAux fuel rest
    else if isNoteStart c then
      let mods := rest.takeWhile isModChar
      let rest2 := rest.dropWhile isModChar
      let digits := rest2.takeWhile Char.isDigit
      let rest3 := rest2.dropWhile Char.isDigit
      (c :: mods, digits) :: scanAux fuel rest3
    else if c = 'z' then
      let digits := rest.takeWhile Char.isDigit
      let rest3 := rest.dropWhile Char.isDigit
      ([c], digits) :: scanAux fuel rest3
    else scanAux fuel rest

def scanTokens (s : List Char) : List (List Char × List Char) := scanAux s.length s

/-- Value of a digit string under Python int(). -/
def digitsToNat (ds : List Char) : ℕ := ds.foldl (fun acc d => 10 * acc + (d.toNat - 48)) 0

/-- The grouping loop of parse_chord: a letter followed by a comma or an
apostrophe forms a two-character symbol, otherwise a one-character symbol. -/
def chordGroup : List Char → List String
  | [] => []
  | [c] => [String.mk [c]]
  | c :: d :: rest =>
    if isModChar d then String.mk [c, d] :: chordGroup rest
    else String.mk [c] :: chordGroup (d :: rest)

/-- parse_chord: strip the surrounding brackets, then group characters into
individual note symbols. -/
def parse_chord (chord_str : String) : List String :=
  let isBracket := fun c => c == '[' || c == ']'
  chordGroup (((chord_str.toList.dropWhile isBracket).reverse.dropWhile isBracket).reverse)

/-- Classification of one scanned token into a chord, note or rest event
(the branch chain at the end of the parse_voice_content loop). -/
def classifyToken (tok : List Char) (beats : ℚ) : Option NoteItem :=
  match tok with
  | '[' :: _ => some (.chord (parse_chord (String.mk tok)) beats)
  | _ =>
    if (NOTES.lookup (String.mk tok)).isSome then some (.note (String.mk tok) beats)
    else if String.mk tok = "z" then some (.rest beats)
    else none

/-- parse_voice_content: strip comments, replace bar lines, tokenize, convert
each raw multiplier to beats with multiplier * (4 / base_length), classify. -/
def parse_voice_content (content : String) (base_length : ℕ) : List NoteItem :=
  let cs := replaceBars (stripComments content.toList)
  (scanTokens cs).filterMap (fun td =>
    let dur : ℕ := if td.2.isEmpty then 1 else digitsToNat td.2
    classifyToken td.1 ((dur : ℚ) * (4 / (base_length : ℚ))))

/-- The waveform selector of generate_tone. -/
inductive Waveform where
  | square
  | triangle
  | sawtooth
  | sine
  | mixed
deriving DecidableEq

/-- Sample value of np.linspace(0, duration, m, False) at index i. -/
def tAt (duration : ℚ) (m : ℕ) (i : ℕ) : ℚ := duration * i / (m : ℚ)

/-- Samples of generate_tone once the buffer length m = int(sample_rate *
duration) is known to be nonnegative: zero frequency returns np.zeros,
otherwise envelope * waveform, with the 10 ms linear fade-in/out applied
only when the fade fits inside the buffer (the tail fade overwrites the
head fade where the two regions overlap). -/
def toneSamples (env : Env) (frequency duration sample_rate amplitude : ℚ)
    (waveform : Waveform) (m : ℕ) : Buf :=
  if frequency = 0 then List.replicate m 0 else
  let t := tAt duration m
  let fade := (pyInt (1/100 * sample_rate)).toNat
  let envl := fun i : ℕ =>
    if fade < m then
      if m - fade ≤ i then (linspaceE 1 0 fade).getD (i - (m - fade)) 0
      else if i < fade then (linspaceE 0 1 fade).getD i 0
      else 1
    else 1
  let wav := fun i : ℕ =>
    match waveform with
    | .square => pySign (env.sin (2 * env.pi * frequency * t i))
    | .triangle => 2 * |2 * Int.fract (t i * frequency) - 1| - 1
    | .sawtooth => 2 * Int.fract (t i * frequency) - 1
    | .sine => env.sin (2 * env.pi * frequency * t i)
    | .mixed =>
        7/10 * pySign (env.sin (2 * env.pi * frequency * t i)) +
        3/10 * (2 * |2 * Int.fract (t i * frequency) - 1| - 1)
  (List.range m).map (fun i => amplitude * envl i * wav i)

/-- generate_tone; np.zeros and np.linspace both raise exactly when
int(sample_rate * duration) is negative, modelled as none. -/
def generate_tone (env : Env) (frequency duration sample_rate amplitude : ℚ)
    (waveform : Waveform) : Option Buf :=
  let n := pyInt (sample_rate * duration)
  if n < 0 then none
  else some (toneSamples env frequency duration sample_rate amplitude waveform n.toNat)

/-- Samples of generate_chord_tone at known nonnegative buffer length m:
start from np.zeros and add a sine tone for every chord note found in the
NOTES table (each inner generate_tone call shares the same length m and
cannot fail once the initial np.zeros call succeeded). -/
def chordSamples (env : Env) (chord_notes : List String)
    (duration sample_rate amplitude : ℚ) (m : ℕ) : Buf :=
  chord_notes.foldl (fun chord_sound note =>
    match NOTES.lookup note with
    | some frequency =>
        badd chord_sound
          (toneSamples env frequency duration sample_rate
            (amplitude / (chord_notes.length : ℚ)) .sine m)
    | none => chord_sound) (List.replicate m 0)

/-- generate_chord_tone. -/
def generate_chord_tone (env : Env) (chord_notes : List String)
    (duration sample_rate amplitude : ℚ) : Option Buf :=
  let n := pyInt (sample_rate * duration)
  if n < 0 then none
  else some (chordSamples env chord_notes duration sample_rate amplitude n.toNat)

/-- Samples of generate_timpani_tone at known nonnegative length m. -/
def timpaniSamples (env : Env) (frequency duration sample_rate amplitude : ℚ)
    (m : ℕ) : Buf :=
  if frequency = 0 then List.replicate m 0 else
  let t := tAt duration m
  let pitch_envelope := fun i : ℕ => frequency * (1 + 1/5 * env.exp (-8 * t i))
  let amp_envelope := fun i : ℕ => amplitude * env.exp (-3 * t i)
  (List.range m).map (fun i =>
    amp_envelope i *
      (3/5 * env.sin (2 * env.pi * pitch_envelope i * t i) +
       3/10 * env.sin (2 * env.pi * pitch_envelope i * (3/2) * t i) +
       1/10 * env.normal 0 (1/20) 0 i * env.exp (-10 * t i)))

/-- generate_timpani_tone. -/
def generate_timpani_tone (env : Env) (frequency duration sample_rate amplitude : ℚ) :
    Option Buf :=
  let n := pyInt (sample_rate * duration)
  if n < 0 then none
  else some (timpaniSamples env frequency duration sample_rate amplitude n.toNat)

/-- Samples of generate_explosion_tone at known nonnegative length m: six
layers (main tone with pitch sweep, sub-bass, harmonics, crack noise,
recursively filtered debris noise, delayed aftershock thump), an initial
transient pop ramp, a tanh soft clip, and the overall amplitude envelope. -/
def explosionSamples (env : Env) (frequency duration sample_rate amplitude : ℚ)
    (m : ℕ) : Buf :=
  if frequency = 0 then List.replicate m 0 else
  let t := tAt duration m
  let pitch_envelope := fun i : ℕ =>
    frequency * (1 + 2 * env.exp (-50 * t i)) * env.exp (-8 * t i)
  let amp_envelope := fun i : ℕ =>
    amplitude * (1/2 + 1/2 * env.exp (-100 * t i)) * env.exp (-5 * t i)
  let main_explosion := fun i : ℕ => 2/5 * env.sin (2 * env.pi * pitch_envelope i * t i)
  let sub_bass := fun i : ℕ => 3/10 * env.sin (2 * env.pi * pitch_envelope i * (1/2) * t i)
  let harmonics := fun i : ℕ =>
    3/20 * env.sin (2 * env.pi * pitch_envelope i * 2 * t i) +
    1/10 * env.sin (2 * env.pi * pitch_envelope i * 3 * t i)
  let crack_noise := fun i : ℕ => 2/5 * env.normal 0 1 0 i * env.exp (-30 * t i)
  let debris_noise :=
    iirFilter2 (1/2) (3/10)
      ((List.range m).map (fun i => 1/5 * env.normal 0 1 1 i * env.exp (-12 * t i)))
  let aftershock_delay := (pyInt (1/20 * sample_rate)).toNat
  let aswlen := (pyInt (1/10 * sample_rate)).toNat
  let aftershock := fun i : ℕ =>
    if (aftershock_delay : ℤ) < (m : ℤ) - (aswlen : ℤ) ∧
        aftershock_delay ≤ i ∧ i < aftershock_delay + aswlen then
      3/10 * env.sin (2 * env.pi * 30 * t (i - aftershock_delay)) *
        env.exp (-20 * t (i - aftershock_delay))
    else 0
  let pop_samples := (pyInt (1/500 * sample_rate)).toNat
  let pop := fun i : ℕ =>
    if pop_samples < m ∧ i < pop_samples then (linspaceE (1/2) 2 pop_samples).getD i 1 else 1
  List.zipWith (fun i dn =>
      amp_envelope i *
        (env.tanh
          ((main_explosion i + sub_bass i + harmonics i + crack_noise i + dn +
              aftershock i) * pop i * (4/5)) * (5/4)))
    (List.range m) debris_noise

/-- generate_explosion_tone. -/
def generate_explosion_tone (env : Env) (frequency duration sample_rate amplitude : ℚ) :
    Option Buf :=
  let n := pyInt (sample_rate * duration)
  if n < 0 then none
  else some (explosionSamples env frequency duration sample_rate amplitude n.toNat)

/-- Samples of generate_gunshot_tone at known nonnegative length m: seven
layers (cannon blast harmonics, deep boom, barrel resonance with metallic
overtones, filtered crack noise, mechanism clunk with click transient,
delayed pressure release, delayed shell ejection ring), an initial punch
ramp, a tanh soft clip, and the overall amplitude envelope. -/
def gunshotSamples (env : Env) (frequency duration sample_rate amplitude : ℚ)
    (m : ℕ) : Buf :=
  if frequency = 0 then List.replicate m 0 else
  let t := tAt duration m
  let amp_envelope := fun i : ℕ =>
    amplitude * (4/5 * env.exp (-35 * t i) + 1/5 * env.exp (-8 * t i))
  let blast_freq := frequency * (1/2)
  let cannon_blast := fun i : ℕ =>
    (2/5 * env.sin (2 * env.pi * blast_freq * t i) +
     1/4 * env.sin (2 * env.pi * blast_freq * (3/2) * t i) +
     3/20 * env.sin (2 * env.pi * blast_freq * 2 * t i) +
     1/10 * env.sin (2 * env.pi * blast_freq * 3 * t i)) * env.exp (-30 * t i)
  let boom_freq := frequency * (3/20)
  let deep_boom := fun i : ℕ =>
    1/2 * env.sin (2 * env.pi * boom_freq * t i) * env.exp (-12 * t i)
  let barrel_resonance := fun i : ℕ =>
    3/10 * env.sin (2 * env.pi * frequency * (5/2) * t i) * env.exp (-25 * t i) +
    1/10 * env.sin (2 * env.pi * frequency * (37/10) * t i) * env.exp (-25 * t i) +
    1/10 * env.sin (2 * env.pi * frequency * (26/5) * t i) * env.exp (-25 * t i) +
    1/10 * env.sin (2 * env.pi * frequency * (71/10) * t i) * env.exp (-25 * t i)
  let crisp_crack :=
    iirFilter2 (3/5) (1/5)
      ((List.range m).map (fun i => 3/10 * env.normal 0 1 0 i * env.exp (-50 * t i)))
  let mechanism_samples := (pyInt (1/500 * sample_rate)).toNat
  let mechanism_sound := fun i : ℕ =>
    if mechanism_samples < m ∧ i < mechanism_samples then
      (7/20 * env.sin (2 * env.pi * 800 * t i) * env.exp (-80 * t i)) *
        (if i < (pyInt (1/5000 * sample_rate)).toNat then 2 else 1)
    else 0
  let pressure_delay := (pyInt (1/100 * sample_rate)).toNat
  let pressure_length := min (pyInt (1/20 * sample_rate)).toNat (m - pressure_delay)
  let pressure_release := fun i : ℕ =>
    if pressure_delay < m ∧ pressure_delay ≤ i ∧ i < pressure_delay + pressure_length then
      1/5 * env.normal 0 1 1 (i - pressure_delay) * env.exp (-15 * t (i - pressure_delay))
    else 0
  let shell_delay := (pyInt (3/100 * sample_rate)).toNat
  let shell_length := min (pyInt (1/50 * sample_rate)).toNat (m - shell_delay)
  let shell_ring := fun i : ℕ =>
    if shell_delay < m ∧ shell_delay ≤ i ∧ i < shell_delay + shell_length then
      3/20 * env.sin (2 * env.pi * 1200 * t (i - shell_delay)) *
        env.exp (-40 * t (i - shell_delay))
    else 0
  let punch_samples := (pyInt (1/2000 * sample_rate)).toNat
  let punch := fun i : ℕ =>
    if punch_samples < m ∧ i < punch_samples then (linspaceE 1 (5/2) punch_samples).getD i 1
    else 1
  List.zipWith (fun i cc =>
      amp_envelope i *
        (env.tanh
          ((cannon_blast i + deep_boom i + barrel_resonance i + cc +
              mechanism_sound i + pressure_release i + shell_ring i) * punch i * (3/5)) *
          (8/5)))
    (List.range m) crisp_crack

/-- generate_gunshot_tone. -/
def generate_gunshot_tone (env : Env) (frequency duration sample_rate amplitude : ℚ) :
    Option Buf :=
  let n := pyInt (sample_rate * duration)
  if n < 0 then none
  else some (gunshotSamples env frequency duration sample_rate amplitude n.toNat)

/-- Named parameters in which the two snare variants of the repository
differ: exponential decay rate, noise-filter feedback coefficient, and the
peak gain of the initial attack ramp. -/
structure SnarePreset where
  decay_rate : ℚ
  filter_coeff : ℚ
  ramp_gain : ℚ
deriving DecidableEq

/-- Snare parameterization of generate_snare_tone in
src/js-tanks-3d/audio/abc_to_ogg.py: decay 25, filter coefficient 0.92,
attack ramp rising to gain 3. -/
def snarePresetMain : SnarePreset := ⟨25, 92/100, 3⟩

/-- Modelled from the spec: the repository contains a second, nearly
identical duplicate of this module that is not under src/; per the spec its
snare synthesizer is a variant parameterization differing only in decay
rate (low end of the documented 20 to 25 range), noise-filter coefficient
(high end of the documented 0.92 to 0.95 range) and attack ramp gain. -/
def snarePresetAlt : SnarePreset := ⟨20, 95/100, 2⟩

/-- Samples of generate_snare_tone at known nonnegative length m, for a
given preset: envelope times (tonal component plus recursively filtered
noise), with the initial attack ramp applied when it fits in the buffer. -/
def snareSamplesWith (p : SnarePreset) (env : Env)
    (duration sample_rate amplitude : ℚ) (m : ℕ) : Buf :=
  let t := tAt duration m
  let attack_samples := (pyInt (1/1000 * sample_rate)).toNat
  List.zipWith (fun i nz =>
      (amplitude * env.exp (-p.decay_rate * t i) *
        ((1/4 * env.sin (2 * env.pi * 200 * t i) +
          1/10 * env.sin (2 * env.pi * 200 * (3/2) * t i)) + nz)) *
      (if attack_samples < m ∧ i < attack_samples then
        (linspaceE 0 p.ramp_gain attack_samples).getD i 1
      else 1))
    (List.range m)
    (iirFilter1 p.filter_coeff ((List.range m).map (fun i => 3/4 * env.normal 0 1 0 i)))

/-- generate_snare_tone (the preset of the module under src/). -/
def generate_snare_tone (env : Env) (duration sample_rate amplitude : ℚ) : Option Buf :=
  let n := pyInt (sample_rate * duration)
  if n < 0 then none
  else some (snareSamplesWith snarePresetMain env duration sample_rate amplitude n.toNat)

/-- The voice classifications produced by the name-based dispatch in
convert_abc_to_ogg. -/
inductive VoiceType where
  | melody
  | chords
  | bass
  | timpani
  | snare
  | gunshot
  | explosion
deriving DecidableEq

/-- Python str.lower restricted to the ASCII range (Char.toLower). -/
def lowerStr (s : String) : String := String.mk (s.toList.map Char.toLower)

/-- Python membership test for one list being a contiguous sublist of
another, specialised to characters below. -/
def listStartsWith : List Char → List Char → Bool
  | [], _ => true
  | _ :: _, [] => false
  | a :: as, b :: bs => a == b && listStartsWith as bs

def listHasSub (pat : List Char) : List Char → Bool
  | [] => pat.isEmpty
  | c :: rest => listStartsWith pat (c :: rest) || listHasSub pat rest

/-- Python substring test sub in s. -/
def strContains (s sub : String) : Bool := listHasSub sub.toList s.toList

/-- The if/elif chain of convert_abc_to_ogg choosing a voice type from the
already lowercased display name. -/
def classifyLower (n : String) : VoiceType :=
  if strContains n "melody" then .melody
  else if strContains n "chord" then .chords
  else if strContains n "bass" then .bass
  else if strContains n "timpani" || strContains n "percussion" then .timpani
  else if strContains n "snare" then .snare
  else if strContains n "fire" then .gunshot
  else if strContains n "impact" || strContains n "metal" then .explosion
  else .melody

/-- Voice classification: lowercase the display name, then match substrings. -/
def get_voice_type (name : String) : VoiceType := classifyLower (lowerStr name)

/-- The precedence list stated by the spec: keyword groups in priority
order, each mapped to an instrument classification. -/
def instrumentPrecedence : List (List String × VoiceType) :=
  [(["melody"], .melody), (["chord"], .chords), (["bass"], .bass),
   (["timpani", "percussion"], .timpani), (["snare"], .snare),
   (["fire"], .gunshot), (["impact", "metal"], .explosion)]

/-- First entry of a precedence table whose keyword group matches the
lowercased name; default melody. -/
def firstMatchIn (n : String) : List (List String × VoiceType) → VoiceType
  | [] => .melody
  | e :: rest => if e.1.any (fun kw => strContains n kw) then e.2 else firstMatchIn n rest

/-- Classification as the spec words it: a priority-list lookup over the
case-normalised display name, defaulting to melody. -/
def classifySpec (name : String) : VoiceType :=
  firstMatchIn (lowerStr name) instrumentPrecedence

/-- The loop body of generate_voice_track: duration in seconds is
beats * (60 / tempo); chords go to the chord model, percussion-hit notes
go to the snare model before the voice type is even consulted, the other
notes dispatch on the voice type, rests are silence, all of length
int(sample_rate * duration). -/
def renderEvent (env : Env) (voice_type : VoiceType) (tempo sample_rate : ℚ)
    (item : NoteItem) : Option Buf :=
  let beat_duration := 60 / tempo
  match item with
  | .chord chord_notes b =>
    let duration := b * beat_duration
    if voice_type = .chords then
      generate_chord_tone env chord_notes duration sample_rate (3/10)
    else
      generate_chord_tone env chord_notes duration sample_rate (1/4)
  | .note note b =>
    let duration := b * beat_duration
    let frequency := (NOTES.lookup note).getD 0
    if note = "x" then generate_snare_tone env duration sample_rate (1/2)
    else
      match voice_type with
      | .melody => generate_tone env frequency duration sample_rate (2/5) .mixed
      | .bass => generate_tone env frequency duration sample_rate (7/20) .sawtooth
      | .timpani => generate_timpani_tone env frequency duration sample_rate (2/5)
      | .snare =>
        if note = "x" then generate_snare_tone env duration sample_rate (1/2)
        else npZeros (pyInt (sample_rate * duration))
      | .gunshot => generate_gunshot_tone env frequency duration sample_rate (9/10)
      | .explosion => generate_explosion_tone env frequency duration sample_rate (4/5)
      | .chords => generate_tone env frequency duration sample_rate (3/10) .sine
  | .rest b =>
    let duration := b * beat_duration
    npZeros (pyInt (sample_rate * duration))

/-- generate_voice_track: render each event in order and concatenate. -/
def generate_voice_track (env : Env) (voice_type : VoiceType)
    (notes : List NoteItem) (tempo sample_rate : ℚ) : Option Buf :=
  notes.foldlM (fun track item => do
    let tone ← renderEvent env voice_type tempo sample_rate item
    pure (track ++ tone)) []

/-- Peak absolute amplitude np.max(np.abs(l)) of a buffer (0 on the empty
buffer; numpy itself raises there, see npMaxAbs). -/
def peakAbs (l : Buf) : ℚ := (l.map (fun x => |x|)).foldr max 0

/-- np.max(np.abs(l)): raises on an empty array. -/
def npMaxAbs (l : Buf) : Option ℚ := if l.isEmpty then none else some (peakAbs l)

/-- The snare-presence test of the mixer: the left conjunct
len(tracks) >= 5 short-circuits, and past five tracks np.max raises on an
empty track at index 4 (modelled none); after padding that happens exactly
when every track is empty. -/
def has_snare (tracks : List Buf) : Option Bool :=
  if 5 ≤ tracks.length then
    match npMaxAbs (tracks.getD 4 []) with
    | none => none
    | some m => some (decide (1/100 < m))
  else some false

/-- The gain table chosen by the mixer (none when the snare check raised). -/
def mix_levels (tracks : List Buf) : Option (List ℚ) :=
  match has_snare tracks with
  | none => none
  | some true => some [11/10, 7/10, 4/5, 3/5, 9/10]
  | some false => some [1, 3/5, 7/10, 1/2, 1/2]

/-- Positional gain applied to track i: table entry when i is inside the
table, else 0.5 (none when the snare check raised). -/
def mixGain (tracks : List Buf) (i : ℕ) : Option ℚ :=
  (mix_levels tracks).map (fun levels => levels.getD i (1/2))

/-- The normalization step of the mastering stage: peak of the mixed buffer
(raising on an empty buffer as numpy does), then scale to ceiling 0.6 when
the filename marks a game-over theme and 0.85 otherwise; all-zero buffers
are left untouched. -/
def normalizeMix (game_over : Bool) (mixed : Buf) : Option Buf :=
  match npMaxAbs mixed with
  | none => none
  | some max_val =>
    some (if 0 < max_val then
            if game_over then mixed.map (fun x => x / max_val * (3/5))
            else mixed.map (fun x => x / max_val * (17/20))
          else mixed)

/-- A concrete environment instance, used to evaluate witnesses. -/
def env0 : Env := ⟨0, fun _ => 0, fun _ => 0, fun _ => 0, fun _ _ _ _ => 0⟩

theorem linspaceE_length (a b : ℚ) (n : ℕ) : (linspaceE a b n).length = n := by
  unfold linspaceE
  split
  · simp [*]
  · simp

theorem iir1Aux_length (c p : ℚ) (xs : List ℚ) : (iir1Aux c p xs).length = xs.length := by
  induction xs generalizing p with
  | nil => rfl
  | cons x rest ih => simp [iir1Aux, ih]

theorem iirFilter1_length (c : ℚ) (xs : Buf) : (iirFilter1 c xs).length = xs.length := by
  cases xs with
  | nil => rfl
  | cons x rest => simp [iirFilter1, iir1Aux_length]

theorem iir2Aux_length (c1 c2 p2 p1 : ℚ) (xs : List ℚ) :
    (iir2Aux c1 c2 p2 p1 xs).length = xs.length := by
  induction xs generalizing p2 p1 with
  | nil => rfl
  | cons x rest ih => simp [iir2Aux, ih]

theorem iirFilter2_length (c1 c2 : ℚ) (xs : Buf) : (iirFilter2 c1 c2 xs).length = xs.length := by
  match xs with
  | [] => rfl
  | [x0] => rfl
  | x0 :: x1 :: rest => simp [iirFilter2, iir2Aux_length]

theorem toneSamples_length (env : Env) (f d sr a : ℚ) (w : Waveform) (m : ℕ) :
    (toneSamples env f d sr a w m).length = m := by
  unfold toneSamples
  split <;> simp

theorem chordSamples_length (env : Env) (notes : List String) (d sr a : ℚ) (m : ℕ) :
    (chordSamples env notes d sr a m).length = m := by
  unfold chordSamples
  have h : ∀ (ns : List String) (acc : Buf), acc.length = m →
      (ns.foldl (fun chord_sound note =>
        match NOTES.lookup note with
        | some frequency =>
            badd chord_sound
              (toneSamples env frequency d sr (a / (notes.length : ℚ)) .sine m)
        | none => chord_sound) acc).length = m := by
    intro ns
    induction ns with
    | nil => intro acc hacc; simpa using hacc
    | cons x rest ih =>
      intro acc hacc
      simp only [List.foldl_cons]
      apply ih
      cases hkx : NOTES.lookup x with
      | none => simpa using hacc
      | some fx => simp [badd, hacc, toneSamples_length]
  exact h notes _ (by simp)

theorem timpaniSamples_length (env : Env) (f d sr a : ℚ) (m : ℕ) :
    (timpaniSamples env f d sr a m).length = m := by
  unfold timpaniSamples
  split <;> simp

theorem explosionSamples_length (env : Env) (f d sr a : ℚ) (m : ℕ) :
    (explosionSamples env f d sr a m).length = m := by
  unfold explosionSamples
  split <;> simp [iirFilter2_length]

theorem gunshotSamples_length (env : Env) (f d sr a : ℚ) (m : ℕ) :
    (gunshotSamples env f d sr a m).length = m := by
  unfold gunshotSamples
  split <;> simp [iirFilter2_length]

theorem snareSamplesWith_length (p : SnarePreset) (env : Env) (d sr a : ℚ) (m : ℕ) :
    (snareSamplesWith p env d sr a m).length = m := by
  unfold snareSamplesWith
  simp [iirFilter1_length]

theorem pyInt_of_nonneg (x : ℚ) (hx : 0 ≤ x) : pyInt x = ⌊x⌋ := by
  unfold pyInt
  rw [if_neg (not_lt.mpr hx)]

theorem pyInt_nonneg (x : ℚ) (hx : 0 ≤ x) : 0 ≤ pyInt x := by
  rw [pyInt_of_nonneg x hx]
  exact Int.floor_nonneg.mpr hx

theorem floor_round_close (x : ℚ) : |(⌊x⌋ : ℤ) - round x| ≤ 1 := by
  rw [round_eq]
  have h1 : ⌊x⌋ ≤ ⌊x + 1/2⌋ := Int.floor_mono (by linarith)
  have h2 : ⌊x + 1/2⌋ ≤ ⌊x + 1⌋ := Int.floor_mono (by linarith)
  rw [Int.floor_add_one] at h2
  rw [abs_le]
  constructor <;> omega

theorem npZeros_run (n : ℤ) (h : 0 ≤ n) : npZeros n = some (List.replicate n.toNat 0) := by
  simp [npZeros, not_lt.mpr h]

theorem generate_tone_run (env : Env) (f d sr a : ℚ) (w : Waveform)
    (h : 0 ≤ pyInt (sr * d)) :
    generate_tone env f d sr a w = some (toneSamples env f d sr a w (pyInt (sr * d)).toNat) := by
  simp only [generate_tone]
  rw [if_neg (not_lt.mpr h)]

theorem generate_chord_tone_run (env : Env) (notes : List String) (d sr a : ℚ)
    (h : 0 ≤ pyInt (sr * d)) :
    generate_chord_tone env notes d sr a =
      some (chordSamples env notes d sr a (pyInt (sr * d)).toNat) := by
  simp only [generate_chord_tone]
  rw [if_neg (not_lt.mpr h)]

theorem generate_timpani_tone_run (env : Env) (f d sr a : ℚ) (h : 0 ≤ pyInt (sr * d)) :
    generate_timpani_tone env f d sr a =
      some (timpaniSamples env f d sr a (pyInt (sr * d)).toNat) := by
  simp only [generate_timpani_tone]
  rw [if_neg (not_lt.mpr h)]

theorem generate_explosion_tone_run (env : Env) (f d sr a : ℚ) (h : 0 ≤ pyInt (sr * d)) :
    generate_explosion_tone env f d sr a =
      some (explosionSamples env f d sr a (pyInt (sr * d)).toNat) := by
  simp only [generate_explosion_tone]
  rw [if_neg (not_lt.mpr h)]

theorem generate_gunshot_tone_run (env : Env) (f d sr a : ℚ) (h : 0 ≤ pyInt (sr * d)) :
    generate_gunshot_tone env f d sr a =
      some (gunshotSamples env f d sr a (pyInt (sr * d)).toNat) := by
  simp only [generate_gunshot_tone]
  rw [if_neg (not_lt.mpr h)]

theorem generate_snare_tone_run (env : Env) (d sr a : ℚ) (h : 0 ≤ pyInt (sr * d)) :
    generate_snare_tone env d sr a =
      some (snareSamplesWith snarePresetMain env d sr a (pyInt (sr * d)).toNat) := by
  simp only [generate_snare_tone]
  rw [if_neg (not_lt.mpr h)]

theorem peakAbs_cons (a : ℚ) (l : Buf) : peakAbs (a :: l) = max |a| (peakAbs l) := rfl

theorem peakAbs_nonneg (l : Buf) : 0 ≤ peakAbs l := by
  induction l with
  | nil => simp [peakAbs]
  | cons a rest ih => rw [peakAbs_cons]; exact le_trans ih (le_max_right _ _)

theorem peakAbs_map_mul (l : Buf) (c : ℚ) (hc : 0 ≤ c) :
    peakAbs (l.map (fun x => x * c)) = peakAbs l * c := by
  induction l with
  | nil => simp [peakAbs]
  | cons a rest ih =>
    simp only [List.map_cons, peakAbs_cons, ih]
    rw [abs_mul, abs_of_nonneg hc, max_mul_of_nonneg _ _ hc]

theorem pyInt_lt_zero (x : ℚ) (hx : x ≤ -1) : pyInt x < 0 := by
  rw [pyInt, if_pos (by linarith : x < 0)]
  have h2 : ⌈x⌉ ≤ ⌈(-1 : ℚ)⌉ := Int.ceil_mono hx
  have h3 : ⌈(-1 : ℚ)⌉ = -1 := by
    rw [show ((-1 : ℚ)) = ((-1 : ℤ) : ℚ) by push_cast; ring]
    exact Int.ceil_intCast _
  omega

theorem renderEvent_run (env : Env) (vt : VoiceType) (T sr : ℚ) (item : NoteItem)
    (hT : 0 < T) (hd : 0 ≤ item.beats) (hsr : 0 ≤ sr) :
    ∃ buf, renderEvent env vt T sr item = some buf ∧
      buf.length = (pyInt (sr * (item.beats * (60 / T)))).toNat := by
  rcases item with ⟨notes, b⟩ | ⟨sym, b⟩ | b
  · simp only [NoteItem.beats] at hd ⊢
    have hx : 0 ≤ pyInt (sr * (b * (60 / T))) :=
      pyInt_nonneg _ (mul_nonneg hsr (mul_nonneg hd (div_nonneg (by norm_num) hT.le)))
    simp only [renderEvent]
    split
    · exact ⟨_, generate_chord_tone_run env notes _ sr _ hx, chordSamples_length _ _ _ _ _ _⟩
    · exact ⟨_, generate_chord_tone_run env notes _ sr _ hx, chordSamples_length _ _ _ _ _ _⟩
  · simp only [NoteItem.beats] at hd ⊢
    have hx : 0 ≤ pyInt (sr * (b * (60 / T))) :=
      pyInt_nonneg _ (mul_nonneg hsr (mul_nonneg hd (div_nonneg (by norm_num) hT.le)))
    simp only [renderEvent]
    by_cases hsx : sym = "x"
    · rw [if_pos hsx]
      exact ⟨_, generate_snare_tone_run env _ sr _ hx, snareSamplesWith_length _ _ _ _ _ _⟩
    · rw [if_neg hsx]
      cases vt
      · exact ⟨_, generate_tone_run env _ _ sr _ _ hx, toneSamples_length _ _ _ _ _ _ _⟩
      · exact ⟨_, generate_tone_run env _ _ sr _ _ hx, toneSamples_length _ _ _ _ _ _ _⟩
      · exact ⟨_, generate_tone_run env _ _ sr _ _ hx, toneSamples_length _ _ _ _ _ _ _⟩
      · exact ⟨_, generate_timpani_tone_run env _ _ sr _ hx, timpaniSamples_length _ _ _ _ _ _⟩
      · rw [if_neg hsx]
        exact ⟨_, npZeros_run _ hx, by simp [Int.toNat_of_nonneg hx]⟩
      · exact ⟨_, generate_gunshot_tone_run env _ _ sr _ hx, gunshotSamples_length _ _ _ _ _ _⟩
      · exact ⟨_, generate_explosion_tone_run env _ _ sr _ hx, explosionSamples_length _ _ _ _ _ _⟩
  · simp only [NoteItem.beats] at hd ⊢
    have hx : 0 ≤ pyInt (sr * (b * (60 / T))) :=
      pyInt_nonneg _ (mul_nonneg hsr (mul_nonneg hd (div_nonneg (by norm_num) hT.le)))
    simp only [renderEvent]
    exact ⟨_, npZeros_run _ hx, by simp [Int.toNat_of_nonneg hx]⟩

/-- Claim C1: every NoteEvent of duration d beats rendered at tempo T BPM
and sample rate 44100 by the dispatch loop of generate_voice_track yields a
buffer whose length is within one sample of round(44100 * d * 60 / T); the
code truncates via int(sample_rate * duration) rather than rounding. -/
theorem c1_buffer_length (env : Env) (vt : VoiceType) (item : NoteItem) (T : ℚ)
    (hT : 0 < T) (hd : 0 ≤ item.beats) :
    ∃ buf, renderEvent env vt T 44100 item = some buf ∧
      |(buf.length : ℤ) - round (44100 * item.beats * 60 / T)| ≤ 1 := by
  obtain ⟨buf, hrun, hlen⟩ := renderEvent_run env vt T 44100 item hT hd (by norm_num)
  refine ⟨buf, hrun, ?_⟩
  have hx : 0 ≤ (44100 : ℚ) * (item.beats * (60 / T)) :=
    mul_nonneg (by norm_num) (mul_nonneg hd (div_nonneg (by norm_num) hT.le))
  have hy : (44100 : ℚ) * (item.beats * (60 / T)) = 44100 * item.beats * 60 / T := by
    field_simp
    ring
  rw [hlen, Int.toNat_of_nonneg (pyInt_nonneg _ hx), pyInt_of_nonneg _ hx, ← hy]
  exact floor_round_close _

/-- Claim C1 witness: the note C for one beat at tempo 120. -/
theorem c1_witness :
    (0 : ℚ) < 120 ∧ (0 : ℚ) ≤ (NoteItem.note "C" 1).beats ∧
    ∃ buf, renderEvent env0 .melody 120 44100 (NoteItem.note "C" 1) = some buf ∧
      |(buf.length : ℤ) - round (44100 * (NoteItem.note "C" 1).beats * 60 / 120)| ≤ 1 :=
  ⟨by norm_num, by simp [NoteItem.beats],
   c1_buffer_length env0 .melody (NoteItem.note "C" 1) 120 (by norm_num)
     (by simp [NoteItem.beats])⟩

/-- Claim C2: parsing the voice body text with the chord token CEG under
base length denominator 8 yields exactly one Chord event with pitch list
C, E, G in that order and duration 2 * 4/8 = 1 beat. -/
theorem c2_chord_parse :
    parse_voice_content "[CEG]2" 8 = [NoteItem.chord ["C", "E", "G"] 1] := by
  have hscan : scanTokens (replaceBars (stripComments "[CEG]2".toList)) =
      [("[CEG]".toList, ['2'])] := by decide
  have hd2 : digitsToNat ['2'] = 2 := by decide
  simp only [parse_voice_content]
  rw [hscan]
  simp [classifyToken]
  exact ⟨by decide, by rw [hd2]; norm_num⟩

/-- Claim C6: a Note event carrying the percussion-hit symbol x dispatches
to generate_snare_tone (at amplitude 0.5) for every voice classification. -/
theorem c6_percussion_routes_to_snare (env : Env) (vt : VoiceType) (T sr b : ℚ) :
    renderEvent env vt T sr (NoteItem.note "x" b) =
      generate_snare_tone env (b * (60 / T)) sr (1/2) := by
  cases vt <;> simp [renderEvent]

/-- Claim C3: a Rest event under any voice classification, and a Note event
whose symbol resolves to frequency 0 rendered through one of the
generate_tone paths (melody, bass, or the default sine fallback that the
chords classification reaches for single notes), produce a buffer that is
exactly all zeros of the length int(44100 * duration) implied by the
requested duration. -/
theorem c3_silence (env : Env) (vt vt2 : VoiceType) (T b : ℚ) (sym : String)
    (hT : 0 < T) (hb : 0 ≤ b) (h0 : NOTES.lookup sym = some 0)
    (hvt : vt = .melody ∨ vt = .bass ∨ vt = .chords) :
    renderEvent env vt T 44100 (NoteItem.note sym b) =
      some (List.replicate (pyInt (44100 * (b * (60 / T)))).toNat 0) ∧
    renderEvent env vt2 T 44100 (NoteItem.rest b) =
      some (List.replicate (pyInt (44100 * (b * (60 / T)))).toNat 0) := by
  have hx : 0 ≤ pyInt ((44100 : ℚ) * (b * (60 / T))) :=
    pyInt_nonneg _ (mul_nonneg (by norm_num) (mul_nonneg hb (div_nonneg (by norm_num) hT.le)))
  have hsx : sym ≠ "x" := by
    intro hcontra
    rw [hcontra] at h0
    exact absurd h0 (by decide)
  constructor
  · rcases hvt with h | h | h <;> subst h
    · simp only [renderEvent]
      rw [if_neg hsx, h0, generate_tone_run env _ _ _ _ _ hx]
      simp [toneSamples, Option.getD]
    · simp only [renderEvent]
      rw [if_neg hsx, h0, generate_tone_run env _ _ _ _ _ hx]
      simp [toneSamples, Option.getD]
    · simp only [renderEvent]
      rw [if_neg hsx, h0, generate_tone_run env _ _ _ _ _ hx]
      simp [toneSamples, Option.getD]
  · simp only [renderEvent]
    exact npZeros_run _ hx

/-- Claim C3 witness: the rest symbol z (frequency 0) at tempo 120 for two
beats, in a melody voice and, for the rest part, a timpani voice. -/
theorem c3_witness :
    (0 : ℚ) < 120 ∧ (0 : ℚ) ≤ 2 ∧ NOTES.lookup "z" = some 0 ∧
    (renderEvent env0 .melody 120 44100 (NoteItem.note "z" 2) =
       some (List.replicate (pyInt (44100 * ((2 : ℚ) * (60 / 120)))).toNat 0) ∧
     renderEvent env0 .timpani 120 44100 (NoteItem.rest 2) =
       some (List.replicate (pyInt (44100 * ((2 : ℚ) * (60 / 120)))).toNat 0)) :=
  ⟨by norm_num, by norm_num, by decide,
   c3_silence env0 .melody .timpani 120 2 "z" (by norm_num) (by norm_num) (by decide)
     (Or.inl rfl)⟩

/-- Claim C10: in a voice classified as snare, every Note event whose
symbol is not the percussion-hit symbol x renders to an all-zero buffer of
length int(44100 * duration-in-seconds). -/
theorem c10_snare_voice_silence (env : Env) (T b : ℚ) (sym : String)
    (hT : 0 < T) (hb : 0 ≤ b) (hsym : sym ≠ "x") :
    renderEvent env .snare T 44100 (NoteItem.note sym b) =
      some (List.replicate (pyInt (44100 * (b * (60 / T)))).toNat 0) := by
  have hx : 0 ≤ pyInt ((44100 : ℚ) * (b * (60 / T))) :=
    pyInt_nonneg _ (mul_nonneg (by norm_num) (mul_nonneg hb (div_nonneg (by norm_num) hT.le)))
  simp only [renderEvent]
  rw [if_neg hsym, if_neg hsym]
  exact npZeros_run _ hx

/-- Claim C10 witness: the note C for one beat at tempo 120 in a snare
voice renders to 22050 zero samples. -/
theorem c10_witness :
    ("C" : String) ≠ "x" ∧
    renderEvent env0 .snare 120 44100 (NoteItem.note "C" 1) =
      some (List.replicate (pyInt (44100 * ((1 : ℚ) * (60 / 120)))).toNat 0) :=
  ⟨by decide, c10_snare_voice_silence env0 120 1 "C" (by norm_num) (by norm_num) (by decide)⟩

/-- The normalization target ceiling of the mastering stage: 0.6 for a
game-over (defeat/ending) context, 0.85 otherwise. -/
def masterCeiling (game_over : Bool) : ℚ := if game_over then 3/5 else 17/20

/-- Claim C4 counterexample: the empty mixed buffer (reachable when every
voice parses to zero events, so all tracks and their mix have length 0) is
vacuously all-zero, yet normalization does not leave it unchanged: np.max
on the empty array raises ValueError, modelled none. -/
theorem c4_counterexample : normalizeMix false [] = none := rfl

/-- Claim C4 as amended: on a nonempty mixed buffer, a nonzero
pre-normalization peak normalizes to exactly the context ceiling (0.6 with
the game-over flag, 0.85 otherwise) and a zero peak leaves the buffer
unchanged with no division performed; the empty mixed buffer instead makes
the peak computation raise (modelled none). -/
theorem c4_normalize (g : Bool) (mixed : Buf) :
    (mixed = [] → normalizeMix g mixed = none) ∧
    (mixed ≠ [] →
      (0 < peakAbs mixed →
        ∃ out, normalizeMix g mixed = some out ∧ peakAbs out = masterCeiling g) ∧
      (peakAbs mixed = 0 → normalizeMix g mixed = some mixed)) := by
  refine ⟨?_, ?_⟩
  · intro hnil
    subst hnil
    rfl
  intro hne
  have hnpe : npMaxAbs mixed = some (peakAbs mixed) := by
    simp [npMaxAbs, hne]
  constructor
  · intro hpos
    have hne0 : peakAbs mixed ≠ 0 := ne_of_gt hpos
    have hcnn : (0 : ℚ) ≤ peakAbs mixed := peakAbs_nonneg mixed
    cases g
    · refine ⟨mixed.map (fun x => x / peakAbs mixed * (17/20)), ?_, ?_⟩
      · simp only [normalizeMix]
        rw [hnpe]
        simp [hpos]
      · have hrw : (fun x : ℚ => x / peakAbs mixed * (17/20)) =
            fun x : ℚ => x * (17/20 / peakAbs mixed) := by
          funext x
          ring
        rw [hrw, peakAbs_map_mul _ _ (div_nonneg (by norm_num) hcnn), mul_comm,
          div_mul_cancel₀ _ hne0]
        simp [masterCeiling]
    · refine ⟨mixed.map (fun x => x / peakAbs mixed * (3/5)), ?_, ?_⟩
      · simp only [normalizeMix]
        rw [hnpe]
        simp [hpos]
      · have hrw : (fun x : ℚ => x / peakAbs mixed * (3/5)) =
            fun x : ℚ => x * (3/5 / peakAbs mixed) := by
          funext x
          ring
        rw [hrw, peakAbs_map_mul _ _ (div_nonneg (by norm_num) hcnn), mul_comm,
          div_mul_cancel₀ _ hne0]
        simp [masterCeiling]
  · intro h0
    simp only [normalizeMix]
    rw [hnpe]
    simp [h0]

/-- Claim C4 witness: the buffer with the single sample one half, no
game-over flag, normalizes to peak exactly 0.85; the empty buffer raises. -/
theorem c4_witness :
    normalizeMix false [] = none ∧
    ∃ out, normalizeMix false [(1 : ℚ)/2] = some out ∧
      peakAbs out = masterCeiling false :=
  ⟨(c4_normalize false []).1 rfl,
   ((c4_normalize false [(1 : ℚ)/2]).2 (by simp)).1 (by norm_num [peakAbs])⟩

/-- Claim C5 counterexample: with five tracks that are all empty (every
voice parsed to zero events, so padding leaves length 0) the claimed
otherwise-branch does not select the normal table: the snare check raises
ValueError at np.max on the empty track at index 4, modelled none, and no
gain table is selected. -/
theorem c5_counterexample :
    5 ≤ ([[], [], [], [], []] : List Buf).length ∧
    has_snare [[], [], [], [], []] = none ∧
    mix_levels [[], [], [], [], []] = none := ⟨by norm_num, rfl, rfl⟩

/-- Claim C5 as amended: the intense gain table is selected exactly when at
least five tracks exist and track index 4 peaks strictly above 0.01; the
normal table is used otherwise, except that with at least five tracks and
an empty track at index 4 (after padding: all tracks empty) the snare
check raises and no table is selected; gains are positional and every
index beyond the five-entry table receives gain 0.5. -/
theorem c5_gain_profile (tracks : List Buf) :
    (has_snare tracks = some true ↔
      5 ≤ tracks.length ∧ 1/100 < peakAbs (tracks.getD 4 [])) ∧
    (has_snare tracks = some true →
      mix_levels tracks = some [11/10, 7/10, 4/5, 3/5, 9/10]) ∧
    (has_snare tracks = some false →
      mix_levels tracks = some [1, 3/5, 7/10, 1/2, 1/2]) ∧
    (5 ≤ tracks.length → tracks.getD 4 [] = [] →
      has_snare tracks = none ∧ mix_levels tracks = none) ∧
    (∀ i, 5 ≤ i → ∀ g, mixGain tracks i = some g → g = 1/2) := by
  have hlev : ∀ levels, mix_levels tracks = some levels → levels.length = 5 := by
    intro levels hml
    simp only [mix_levels] at hml
    cases hhs : has_snare tracks with
    | none => rw [hhs] at hml; cases hml
    | some b =>
      rw [hhs] at hml
      cases b <;> simp at hml <;> simp [← hml]
  refine ⟨?_, ?_, ?_, ?_, ?_⟩
  · simp only [has_snare]
    by_cases hlen : 5 ≤ tracks.length
    · rw [if_pos hlen]
      by_cases hemp : (tracks.getD 4 []).isEmpty
      · have hnil : tracks.getD 4 [] = [] := by rwa [List.isEmpty_iff] at hemp
        rw [npMaxAbs, if_pos hemp, hnil]
        simp [peakAbs]
      · rw [npMaxAbs, if_neg hemp]
        simp [hlen]
    · rw [if_neg hlen]
      simp [hlen]
  · intro h
    simp only [mix_levels]
    rw [h]
  · intro h
    simp only [mix_levels]
    rw [h]
  · intro hlen hnil
    have hhs : has_snare tracks = none := by
      simp only [has_snare]
      rw [if_pos hlen, hnil]
      rfl
    refine ⟨hhs, ?_⟩
    simp only [mix_levels]
    rw [hhs]
  · intro i hi g hg
    simp only [mixGain] at hg
    cases hml : mix_levels tracks with
    | none => rw [hml] at hg; cases hg
    | some levels =>
      rw [hml] at hg
      simp only [Option.map_some'] at hg
      rw [← Option.some.inj hg]
      exact List.getD_eq_default _ _ (by rw [hlev levels hml]; exact hi)

/-- Claim C5 witness: five loud tracks select the intense table; four
tracks select the normal table; five empty tracks raise; index 7 gets gain
0.5. -/
theorem c5_witness :
    has_snare [[1], [1], [1], [1], [1]] = some true ∧
    mix_levels [[1], [1], [1], [1], [1]] = some [11/10, 7/10, 4/5, 3/5, 9/10] ∧
    has_snare [[1], [1], [1], [1]] = some false ∧
    mix_levels [[1], [1], [1], [1]] = some [1, 3/5, 7/10, 1/2, 1/2] ∧
    has_snare [[], [], [], [], []] = none ∧ mix_levels [[], [], [], [], []] = none ∧
    (∀ g, mixGain [[1], [1], [1], [1], [1]] 7 = some g → g = 1/2) := by
  have h1 : has_snare [([1] : Buf), [1], [1], [1], [1]] = some true := by
    simp [has_snare, npMaxAbs, peakAbs]
    norm_num
  have h2 : has_snare [([1] : Buf), [1], [1], [1]] = some false := by
    simp [has_snare]
  have h3 := (c5_gain_profile ([[], [], [], [], []] : List Buf)).2.2.2.1 (by norm_num) rfl
  exact ⟨h1, (c5_gain_profile _).2.1 h1, h2, (c5_gain_profile _).2.2.1 h2,
    h3.1, h3.2, fun g hg => (c5_gain_profile _).2.2.2.2 7 (by norm_num) g hg⟩

/-- Claim C7: voice classification is a total function of the display name
that agrees with the case-insensitive precedence list of the spec
(melody, chord, bass, timpani/percussion, snare, fire, impact/metal,
default melody), and names with equal case normalization classify equally. -/
theorem c7_classification :
    (∀ name, get_voice_type name = classifySpec name) ∧
    (∀ a b, lowerStr a = lowerStr b → get_voice_type a = get_voice_type b) := by
  constructor
  · intro name
    rw [get_voice_type, classifySpec]
    generalize lowerStr name = n
    simp only [classifyLower, instrumentPrecedence, firstMatchIn, List.any_cons,
      List.any_nil, Bool.or_false]
  · intro a b h
    rw [get_voice_type, get_voice_type, h]

/-- Claim C7 witness: concrete names for the agreement and for the
case-insensitivity parts. -/
theorem c7_witness :
    get_voice_type "Tank SNARE Drums" = classifySpec "Tank SNARE Drums" ∧
    get_voice_type "BASS" = get_voice_type "Bass" :=
  ⟨c7_classification.1 "Tank SNARE Drums",
   c7_classification.2 "BASS" "Bass" (by decide)⟩

/-- Claim C8 counterexample: duration -1 makes every tone path compute the
negative buffer length int(44100 * -1); numpy raises there (modelled none)
instead of returning a silent buffer, so the synthesizers are not total
over negative durations. -/
theorem c8_counterexample :
    generate_tone env0 440 (-1) 44100 (3/10) Waveform.mixed = none := by
  simp only [generate_tone]
  rw [if_pos (pyInt_lt_zero _ (by norm_num))]

/-- Claim C8 amended: at every duration whose derived buffer length
int(44100 * duration) is zero, every synthesizer returns an empty (hence
silent) buffer, but at any duration whose derived buffer length is
negative every synthesizer raises (modelled as none) rather than producing
a buffer. -/
theorem c8_amended_safety (env : Env) (frequency amplitude : ℚ) (w : Waveform)
    (chord_notes : List String) (d0 d : ℚ)
    (h0 : pyInt (44100 * d0) = 0) (hneg : pyInt (44100 * d) < 0) :
    (generate_tone env frequency d0 44100 amplitude w = some [] ∧
     generate_chord_tone env chord_notes d0 44100 amplitude = some [] ∧
     generate_timpani_tone env frequency d0 44100 amplitude = some [] ∧
     generate_snare_tone env d0 44100 amplitude = some [] ∧
     generate_gunshot_tone env frequency d0 44100 amplitude = some [] ∧
     generate_explosion_tone env frequency d0 44100 amplitude = some []) ∧
    (generate_tone env frequency d 44100 amplitude w = none ∧
     generate_chord_tone env chord_notes d 44100 amplitude = none ∧
     generate_timpani_tone env frequency d 44100 amplitude = none ∧
     generate_snare_tone env d 44100 amplitude = none ∧
     generate_gunshot_tone env frequency d 44100 amplitude = none ∧
     generate_explosion_tone env frequency d 44100 amplitude = none) := by
  have hz : (0 : ℤ) ≤ pyInt ((44100 : ℚ) * d0) := le_of_eq h0.symm
  refine ⟨⟨?_, ?_, ?_, ?_, ?_, ?_⟩, ⟨?_, ?_, ?_, ?_, ?_, ?_⟩⟩
  · rw [generate_tone_run env _ _ _ _ _ hz, h0, Int.toNat_zero]
    exact congrArg some (List.length_eq_zero.mp (toneSamples_length _ _ _ _ _ _ _))
  · rw [generate_chord_tone_run env _ _ _ _ hz, h0, Int.toNat_zero]
    exact congrArg some (List.length_eq_zero.mp (chordSamples_length _ _ _ _ _ _))
  · rw [generate_timpani_tone_run env _ _ _ _ hz, h0, Int.toNat_zero]
    exact congrArg some (List.length_eq_zero.mp (timpaniSamples_length _ _ _ _ _ _))
  · rw [generate_snare_tone_run env _ _ _ hz, h0, Int.toNat_zero]
    exact congrArg some (List.length_eq_zero.mp (snareSamplesWith_length _ _ _ _ _ _))
  · rw [generate_gunshot_tone_run env _ _ _ _ hz, h0, Int.toNat_zero]
    exact congrArg some (List.length_eq_zero.mp (gunshotSamples_length _ _ _ _ _ _))
  · rw [generate_explosion_tone_run env _ _ _ _ hz, h0, Int.toNat_zero]
    exact congrArg some (List.length_eq_zero.mp (explosionSamples_length _ _ _ _ _ _))
  · simp only [generate_tone]
    rw [if_pos hneg]
  · simp only [generate_chord_tone]
    rw [if_pos hneg]
  · simp only [generate_timpani_tone]
    rw [if_pos hneg]
  · simp only [generate_snare_tone]
    rw [if_pos hneg]
  · simp only [generate_gunshot_tone]
    rw [if_pos hneg]
  · simp only [generate_explosion_tone]
    rw [if_pos hneg]

/-- Claim C8 witness: the amended statement applied at the nonzero
duration 1/100000 (whose derived length int(44100/100000) is 0) and at
duration -1 (whose derived length is negative). -/
theorem c8_witness :
    pyInt (44100 * ((1 : ℚ)/100000)) = 0 ∧ pyInt (44100 * (-1 : ℚ)) < 0 ∧
    ((generate_tone env0 440 (1/100000) 44100 (3/10) Waveform.mixed = some [] ∧
      generate_chord_tone env0 ["C"] (1/100000) 44100 (3/10) = some [] ∧
      generate_timpani_tone env0 440 (1/100000) 44100 (3/10) = some [] ∧
      generate_snare_tone env0 (1/100000) 44100 (3/10) = some [] ∧
      generate_gunshot_tone env0 440 (1/100000) 44100 (3/10) = some [] ∧
      generate_explosion_tone env0 440 (1/100000) 44100 (3/10) = some []) ∧
     (generate_tone env0 440 (-1) 44100 (3/10) Waveform.mixed = none ∧
      generate_chord_tone env0 ["C"] (-1) 44100 (3/10) = none ∧
      generate_timpani_tone env0 440 (-1) 44100 (3/10) = none ∧
      generate_snare_tone env0 (-1) 44100 (3/10) = none ∧
      generate_gunshot_tone env0 440 (-1) 44100 (3/10) = none ∧
      generate_explosion_tone env0 440 (-1) 44100 (3/10) = none)) :=
  ⟨by
    rw [pyInt_of_nonneg _ (by norm_num), Int.floor_eq_zero_iff]
    constructor <;> norm_num,
   pyInt_lt_zero _ (by norm_num),
   c8_amended_safety env0 440 (3/10) .mixed ["C"] (1/100000) (-1)
     (by
       rw [pyInt_of_nonneg _ (by norm_num), Int.floor_eq_zero_iff]
       constructor <;> norm_num)
     (pyInt_lt_zero _ (by norm_num))⟩

/-- Claim C9: the two snare parameterizations of the repository (the one in
the module under src/ and the variant of its near-duplicate, modelled from
the spec) are distinct presets, differing in decay rate, filter coefficient
and attack ramp gain. -/
theorem c9_two_snare_presets :
    snarePresetMain ≠ snarePresetAlt ∧
    snarePresetMain.decay_rate ≠ snarePresetAlt.decay_rate ∧
    snarePresetMain.filter_coeff ≠ snarePresetAlt.filter_coeff ∧
    snarePresetMain.ramp_gain ≠ snarePresetAlt.ramp_gain := by
  refine ⟨?_, ?_, ?_, ?_⟩ <;>
    norm_num [snarePresetMain, snarePresetAlt, SnarePreset.mk.injEq]

end AbcToOgg
